import Mathlib

/-!
# Verification of the q_task margin-trading ledger

A shallow embedding of the repository's margin/position accounting engine:
the Redis-backed account/market stores (`app/redis_client.py`), the pure
calculation functions and the orchestration services
(`app/services/calculations.py`, `app/services/trading.py`,
`app/services/margin.py`), and the Postgres history log
(`app/postgres.py`, `app/models.py`).

All money and quantity values are embedded as `ℚ` (the source uses exact
`Decimal` arithmetic).  The external key-value store is embedded as
association lists; the relational history log as lists of rows.  Fallible
Python code (raised exceptions) is embedded with `Except`.
-/

namespace QTask

/-- Rate constant `INITIAL_MARGIN_RATE = Decimal('0.20')` shared by
`TradingService` and `CalculationsService`. -/
def INITIAL_MARGIN_RATE : ℚ := 20 / 100

/-- Rate constant `MAINTENANCE_MARGIN_RATE = Decimal('0.10')` shared by
`TradingService`, `CalculationsService` and `MarginService`. -/
def MAINTENANCE_MARGIN_RATE : ℚ := 10 / 100

/-- A per-symbol position as stored in the account store and returned by
`AccountRedisClient.get_position` / `get_all_positions`: the dict
`{"quantity": …, "avg_price": …}`. -/
structure Pos where
  quantity : ℚ
  avg_price : ℚ
deriving DecidableEq, Repr

/-- A row of the append-only `trades` table (`Trade` model in
`app/models.py`, persisted by `AsyncPostgresClient.insert_model`):
id and timestamp are assigned by the store at insert time. -/
structure TradeRow where
  id : Int
  account_id : Int
  symbol : String
  side : String
  quantity : ℚ
  price : ℚ
  notional : ℚ
  timestamp : Nat
deriving DecidableEq, Repr

/-- A row of the append-only `liquidations` table (`Liquidation` model in
`app/models.py`).  The free-text `reason` of the source embeds exactly the
equity and maintenance-margin figures, which are kept here as fields. -/
structure LiqRow where
  id : Int
  account_id : Int
  equity : ℚ
  maintenance_margin : ℚ
  timestamp : Nat
deriving DecidableEq, Repr

/-- Combined external state: the Redis hashes used by `AccountRedisClient`
(`balances`, `positions:{account_id}`) and `MarketRedisClient`
(`mark_prices`), the scalar equity / used-margin cache keys, and the two
Postgres tables.  `clock` drives the store-assigned, monotonically
non-decreasing timestamps. -/
structure Store where
  balances : List (Int × ℚ)
  positions : List (Int × List (String × Pos))
  mark_prices : List (String × ℚ)
  equity_cache : List (Int × ℚ)
  used_margin_cache : List (Int × ℚ)
  trades : List TradeRow
  liquidations : List LiqRow
  clock : Nat
deriving DecidableEq, Repr

/-- Redis `HSET`: overwrite the value under an existing field of a hash, or
append a new field. -/
def hsetAssoc {α β : Type} [BEq α] (l : List (α × β)) (k : α) (v : β) : List (α × β) :=
  match l with
  | [] => [(k, v)]
  | (k2, v2) :: rest => if k2 == k then (k, v) :: rest else (k2, v2) :: hsetAssoc rest k v

/-- Python `str.upper()` as used on the `side` argument: uppercase every
character. -/
def pyUpper (s : String) : String := String.mk (s.data.map Char.toUpper)

/-- Embeds `AccountRedisClient.get_balance`: `float(balance_str) if balance_str
else 0.0` — a missing entry in the `balances` hash reads as balance 0. -/
def get_balance (st : Store) (account_id : Int) : ℚ :=
  match st.balances.lookup account_id with
  | some b => b
  | none => 0

/-- Embeds `AccountRedisClient.set_balance`: write the balance into the
`balances` hash. -/
def set_balance (st : Store) (account_id : Int) (balance : ℚ) : Store :=
  { st with balances := hsetAssoc st.balances account_id balance }

/-- Contents of the Redis hash `positions:{account_id}`; `HGETALL` on a
missing key yields the empty hash.  This is exactly
`AccountRedisClient.get_all_positions` (which parses each
`"quantity,avg_price"` field back into a dict). -/
def get_all_positions (st : Store) (account_id : Int) : List (String × Pos) :=
  match st.positions.lookup account_id with
  | some h => h
  | none => []

/-- The dict built by `AccountRedisClient.get_position`: both branches of
the source return a dict — `{"quantity": 0.0, "avg_price": 0.0}` when the
hash field is absent, the parsed stored values otherwise. -/
def get_position_dict (st : Store) (account_id : Int) (symbol : String) : Pos :=
  match (get_all_positions st account_id).lookup symbol with
  | none => { quantity := 0, avg_price := 0 }
  | some p => p

/-- Embeds `AccountRedisClient.get_position`, with the `Optional` return type of
its signature: the implementation returns a dict on every path, never
`None`. -/
def get_position (st : Store) (account_id : Int) (symbol : String) : Option Pos :=
  some (get_position_dict st account_id symbol)

/-- Embeds `AccountRedisClient.set_position`: reads the existing position for the
symbol, adds the `quantity` argument to it and recomputes a weighted
average of `entry_price` against the existing average price, then stores
the result (`new_avg_price` is 0 when the summed quantity is 0). -/
def set_position (st : Store) (account_id : Int) (symbol : String)
    (quantity entry_price : ℚ) : Store :=
  let existing := get_position_dict st account_id symbol
  let new_quantity := existing.quantity + quantity
  let new_avg_price : ℚ :=
    if new_quantity ≠ 0 then
      (existing.quantity * existing.avg_price + quantity * entry_price) / new_quantity
    else 0
  let new_hash :=
    hsetAssoc (get_all_positions st account_id) symbol (Pos.mk new_quantity new_avg_price)
  { st with positions := hsetAssoc st.positions account_id new_hash }

/-- Embeds `AccountRedisClient.get_all_accounts`: the keys of the `balances`
hash. -/
def get_all_accounts (st : Store) : List Int := st.balances.map Prod.fst

/-- Embeds `MarketRedisClient.get_mark_price`: `float(price_str) if price_str
else None`. -/
def get_mark_price (st : Store) (symbol : String) : Option ℚ :=
  st.mark_prices.lookup symbol

/-- Embeds `MarketRedisClient.set_mark_price`. -/
def set_mark_price (st : Store) (symbol : String) (price : ℚ) : Store :=
  { st with mark_prices := hsetAssoc st.mark_prices symbol price }

/-- The equity calculation `balance + Σ (mark_price - avg_price) * quantity`
over positions with nonzero quantity and a truthy mark price.  The very
same method body appears as `TradingService.calculate_equity`,
`CalculationsService.calculate_equity` and
`MarginService.calculate_account_equity`.  `if mark_price:` in the source
skips both a missing mark price and a mark price of 0 (falsy float). -/
def calculate_equity (st : Store) (account_id : Int) : ℚ :=
  let balance := get_balance st account_id
  let total_pnl :=
    (get_all_positions st account_id).foldl (fun (acc : ℚ) (sp : String × Pos) =>
      if sp.2.quantity = 0 then acc
      else
        match get_mark_price st sp.1 with
        | some mark_price =>
            if mark_price ≠ 0 then acc + (mark_price - sp.2.avg_price) * sp.2.quantity
            else acc
        | none => acc) (0 : ℚ)
  balance + total_pnl

/-- The maintenance-margin calculation
`Σ abs(quantity) * mark_price * MAINTENANCE_MARGIN_RATE` over positions
with nonzero quantity and a truthy mark price.  The very same method body
appears as `TradingService.calculate_maintenance_margin`,
`CalculationsService.calculate_maintenance_margin` and
`MarginService.calculate_maintenance_margin_required`. -/
def calculate_maintenance_margin (st : Store) (account_id : Int) : ℚ :=
  (get_all_positions st account_id).foldl (fun (acc : ℚ) (sp : String × Pos) =>
    if sp.2.quantity = 0 then acc
    else
      match get_mark_price st sp.1 with
      | some mark_price =>
          if mark_price ≠ 0 then acc + |sp.2.quantity| * mark_price * MAINTENANCE_MARGIN_RATE
          else acc
      | none => acc) (0 : ℚ)

/-- Embeds `TradingService.calculate_initial_margin_required`:
`abs(quantity) * price * INITIAL_MARGIN_RATE`. -/
def TradingService.calculate_initial_margin_required (quantity price : ℚ) : ℚ :=
  |quantity| * price * INITIAL_MARGIN_RATE

/-- Embeds `CalculationsService.calculate_initial_margin_required`: the same body
as the `TradingService` copy. -/
def CalculationsService.calculate_initial_margin_required (quantity price : ℚ) : ℚ :=
  |quantity| * price * INITIAL_MARGIN_RATE

/-- The value of a `Decimal` returned by
`CalculationsService.calculate_margin_utilisation`, which can be the
special value `Decimal('Infinity')`. -/
inductive DecResult
  | val (q : ℚ)
  | infinity
deriving DecidableEq, Repr

/-- Embeds `CalculationsService.calculate_margin_utilisation`: 0 when
`maintenance_required == 0`, `Decimal('Infinity')` when `equity == 0`,
otherwise `maintenance_required / equity * 100`. -/
def CalculationsService.calculate_margin_utilisation
    (equity maintenance_required : ℚ) : DecResult :=
  if maintenance_required = 0 then DecResult.val 0
  else if equity = 0 then DecResult.infinity
  else DecResult.val (maintenance_required / equity * 100)

/-- Embeds `MarginService.calculate_margin_utilisation`:
`maintenance_required / equity * 100` when `equity > 0`, else `100`. -/
def MarginService.calculate_margin_utilisation (equity maintenance_required : ℚ) : ℚ :=
  if equity > 0 then maintenance_required / equity * 100 else 100

/-- Embeds `MarginService.is_liquidation_candidate`:
`equity < maintenance_required`. -/
def is_liquidation_candidate (equity maintenance_required : ℚ) : Bool :=
  equity < maintenance_required

/-- Embeds `TradingService.calculate_new_position`: the §4.3 `apply_trade`
weighted-average algorithm.  `current_position` is the dict passed in
(`None` or `{"quantity": cq, "avg_price": cp}`). -/
def TradingService.calculate_new_position (current_position : Option Pos)
    (trade_quantity trade_price : ℚ) : ℚ × ℚ :=
  match current_position with
  | none => (trade_quantity, trade_price)
  | some cur =>
      let current_qty := cur.quantity
      let current_avg_price := cur.avg_price
      let new_quantity := current_qty + trade_quantity
      if new_quantity = 0 then ((0 : ℚ), (0 : ℚ))
      else if (current_qty > 0 ∧ trade_quantity > 0) ∨ (current_qty < 0 ∧ trade_quantity < 0) then
        (new_quantity,
          (current_qty * current_avg_price + trade_quantity * trade_price) / new_quantity)
      else (new_quantity, trade_price)

/-- Embeds `CalculationsService.calculate_new_position`: the same body as the
`TradingService` copy. -/
def CalculationsService.calculate_new_position (current_position : Option Pos)
    (trade_quantity trade_price : ℚ) : ℚ × ℚ :=
  match current_position with
  | none => (trade_quantity, trade_price)
  | some cur =>
      let current_qty := cur.quantity
      let current_avg_price := cur.avg_price
      let new_quantity := current_qty + trade_quantity
      if new_quantity = 0 then ((0 : ℚ), (0 : ℚ))
      else if (current_qty > 0 ∧ trade_quantity > 0) ∨ (current_qty < 0 ∧ trade_quantity < 0) then
        (new_quantity,
          (current_qty * current_avg_price + trade_quantity * trade_price) / new_quantity)
      else (new_quantity, trade_price)

/-- Outcome message of `pre_trade_check` (the source builds f-strings that
embed exactly these figures). -/
inductive CheckMsg
  | approved
  | insufficientQuantity (required available : ℚ)
  | insufficientEquity (required available : ℚ)
deriving DecidableEq, Repr

/-- Exceptions escaping `pre_trade_check`: `TradingError("Invalid side…")`
for a side other than BUY/SELL, and the `KeyError` raised by
`current_positions["BTC-PERP"]` when the account has no stored
`BTC-PERP` entry. -/
inductive PreErr
  | invalidSide
  | keyError
deriving DecidableEq, Repr

/-- Embeds `TradingService.pre_trade_check`.  Note the SELL branch reads
`current_positions["BTC-PERP"]["quantity"]` — the symbol is hardcoded
(source comment: "assume only BTC-PERP is traded") and `pre_trade_check`
does not even receive the trade's symbol. -/
def pre_trade_check (st : Store) (account_id : Int) (side : String)
    (trade_quantity price : ℚ) : Except PreErr (Bool × CheckMsg × ℚ) :=
  let equity := calculate_equity st account_id
  let required_margin := TradingService.calculate_initial_margin_required trade_quantity price
  let current_positions := get_all_positions st account_id
  let current_maintenance := calculate_maintenance_margin st account_id
  if pyUpper side = "SELL" then
    match current_positions.lookup "BTC-PERP" with
    | none => Except.error PreErr.keyError
    | some pos =>
        if pos.quantity - trade_quantity < 0 then
          Except.ok (false, CheckMsg.insufficientQuantity trade_quantity pos.quantity,
            required_margin)
        else Except.ok (true, CheckMsg.approved, required_margin)
  else if pyUpper side = "BUY" then
    let total_required := required_margin + current_maintenance
    if equity < total_required then
      Except.ok (false, CheckMsg.insufficientEquity total_required equity, required_margin)
    else Except.ok (true, CheckMsg.approved, required_margin)
  else Except.error PreErr.invalidSide

/-- The pydantic `Trade` model instance as constructed (before the store
assigns id and timestamp). -/
structure TradeModel where
  account_id : Int
  symbol : String
  side : String
  quantity : ℚ
  price : ℚ
  notional : ℚ
deriving DecidableEq, Repr

/-- Pydantic construction of a `Trade`.  `app/models.py` declares
`notional: float` with no default, so the field is required: construction
raises `ValidationError` when it is not passed. -/
def pydanticConstructTrade (account_id : Int) (symbol side : String)
    (quantity price : ℚ) (notional : Option ℚ) : Except Unit TradeModel :=
  match notional with
  | some n => Except.ok (TradeModel.mk account_id symbol side quantity price n)
  | none => Except.error ()

/-- Embeds `AsyncPostgresClient.insert_model` on the `trades` table: append the
row, the store assigning the id and the timestamp. -/
def insert_trade (st : Store) (t : TradeModel) : Store × Int :=
  let id : Int := st.trades.length + 1
  ({ st with
      trades := st.trades ++
        [TradeRow.mk id t.account_id t.symbol t.side t.quantity t.price t.notional st.clock],
      clock := st.clock + 1 }, id)

/-- Embeds `TradingService._record_trade_in_postgres`: constructs
`Trade(account_id=…, symbol=…, side=side.upper(), quantity=…, price=…)` —
the required field `notional` is not among the keyword arguments, so the
pydantic validation step fails before any insert. -/
def record_trade_in_postgres (st : Store) (account_id : Int) (symbol side : String)
    (quantity price : ℚ) : Except Unit (Store × Int) :=
  match pydanticConstructTrade account_id symbol (pyUpper side) quantity price none with
  | Except.ok t => Except.ok (insert_trade st t)
  | Except.error e => Except.error e

/-- Embeds `Decimal % 1 == 0`: the quantity is a whole number. -/
def isWholeNumber (q : ℚ) : Bool := q.den == 1

/-- Exceptions escaping `TradingService.execute_trade`. -/
inductive ExecErr
  | fractionalQuantity
      -- TradingError "BTC trades must be in whole numbers (no fractional BTC)"
  | invalidSide
      -- TradingError "Invalid side. Side must be BUY or SELL" (from pre_trade_check)
  | notApproved (msg : CheckMsg)
      -- TradeNotApproved(message)
  | keyError
      -- KeyError from the SELL branch of pre_trade_check
  | attributeErrorSetEquity
      -- AttributeError: `self.account_client.set_equity(…)` — AccountRedisClient
      -- defines no such method (nor set_used_margin), so the approved path
      -- raises here after the position and balance writes
  | pydanticMissingNotional
      -- pydantic.ValidationError from Trade construction in _record_trade_in_postgres
deriving DecidableEq, Repr

/-- Embeds `TradingService.execute_trade`.  The returned `Store` is the state of
the external stores when the call finishes or raises (exceptions in the
source leave every already-executed write in place). -/
def execute_trade (st : Store) (account_id : Int) (symbol side : String)
    (quantity price : ℚ) : Store × Except ExecErr Int :=
  if symbol = "BTC-PERP" ∧ ¬ isWholeNumber quantity then
    (st, Except.error ExecErr.fractionalQuantity)
  else
    match pre_trade_check st account_id side quantity price with
    | Except.error PreErr.invalidSide => (st, Except.error ExecErr.invalidSide)
    | Except.error PreErr.keyError => (st, Except.error ExecErr.keyError)
    | Except.ok (check_passed, message, required_margin) =>
        if ¬ check_passed then (st, Except.error (ExecErr.notApproved message))
        else
          let trade_quantity := if pyUpper side = "BUY" then quantity else -quantity
          let current_position := get_position st account_id symbol
          let np := TradingService.calculate_new_position current_position trade_quantity price
          let st1 := set_position st account_id symbol np.1 np.2
          let current_balance := get_balance st1 account_id
          let balance_change :=
            if pyUpper side = "BUY" then -required_margin else required_margin
          let st2 := set_balance st1 account_id (current_balance + balance_change)
          -- `await self.account_client.set_equity(account_id, equity)`:
          -- AccountRedisClient has no set_equity method, so the call raises
          -- AttributeError; the position and balance writes above stay in place.
          (st2, Except.error ExecErr.attributeErrorSetEquity)

/-- One row of the `accounts_detail` list built by
`MarginService.get_margin_utilisation`. -/
structure AccountMarginDetail where
  account_id : Int
  equity : ℚ
  maintenance_margin_required : ℚ
  margin_utilisation_pct : ℚ
  liquidation_risk : Bool
deriving DecidableEq, Repr

/-- The detail dict `get_margin_utilisation` builds for one account:
equity and maintenance margin from the stores, utilisation and the
liquidation flag from the pure helpers. -/
def accountDetail (st : Store) (account_id : Int) : AccountMarginDetail :=
  let equity := calculate_equity st account_id
  let maintenance_required := calculate_maintenance_margin st account_id
  { account_id := account_id
    equity := equity
    maintenance_margin_required := maintenance_required
    margin_utilisation_pct := MarginService.calculate_margin_utilisation equity maintenance_required
    liquidation_risk := is_liquidation_candidate equity maintenance_required }

/-- Embeds `MarginService.record_liquidation`: append a `Liquidation` row (the
reason string of the source embeds exactly the equity and maintenance
figures kept here as fields); the store assigns id and timestamp. -/
def record_liquidation (st : Store) (account_id : Int)
    (equity maintenance_margin : ℚ) : Store :=
  { st with
      liquidations := st.liquidations ++
        [LiqRow.mk (st.liquidations.length + 1) account_id equity maintenance_margin st.clock],
      clock := st.clock + 1 }

/-- The per-account body of the loop in
`MarginService.get_margin_utilisation`: build the detail row, and when the
account is a liquidation candidate also append it to the candidates and
record a liquidation synchronously. -/
def marginScanStep (acc : Store × List Int × List AccountMarginDetail)
    (account_id : Int) : Store × List Int × List AccountMarginDetail :=
  let s := acc.1
  let cands := acc.2.1
  let details := acc.2.2
  let d := accountDetail s account_id
  if d.liquidation_risk then
    (record_liquidation s account_id d.equity d.maintenance_margin_required,
      cands ++ [account_id], details ++ [d])
  else (s, cands, details ++ [d])

/-- The aggregate returned by `MarginService.get_margin_utilisation`. -/
structure MarginReport where
  total_accounts : Nat
  liquidation_candidates : List Int
  accounts_detail : List AccountMarginDetail
deriving DecidableEq, Repr

/-- Embeds `MarginService.get_margin_utilisation`: scan every account id known to
the account store, flag and log the liquidation candidates, and return the
aggregate report together with the resulting store state. -/
def get_margin_utilisation (st : Store) : Store × MarginReport :=
  let all_accounts := get_all_accounts st
  let r := all_accounts.foldl marginScanStep (st, [], [])
  (r.1,
    { total_accounts := all_accounts.length
      liquidation_candidates := r.2.1
      accounts_detail := r.2.2 })

/-- Newest-first order on liquidation rows (`ORDER BY timestamp DESC`). -/
def newerEq (a b : LiqRow) : Prop := b.timestamp ≤ a.timestamp

instance : DecidableRel newerEq := fun a b => Nat.decLe b.timestamp a.timestamp

instance : IsTotal LiqRow newerEq := ⟨fun a b => Nat.le_total b.timestamp a.timestamp⟩

instance : IsTrans LiqRow newerEq := ⟨fun _ _ _ h1 h2 => Nat.le_trans h2 h1⟩

/-- Semantics of the SQL query `SELECT … FROM liquidations WHERE
account_id = $1 ORDER BY timestamp DESC LIMIT $2` run by
`AsyncPostgresClient.fetch_models`. -/
def fetch_liquidations_of_account (db : List LiqRow) (account_id : Int)
    (limit : Nat) : List LiqRow :=
  (List.insertionSort newerEq (db.filter (fun r => r.account_id == account_id))).take limit

/-- Semantics of the SQL query `SELECT … FROM liquidations ORDER BY
timestamp DESC LIMIT $1`. -/
def fetch_liquidations_all (db : List LiqRow) (limit : Nat) : List LiqRow :=
  (List.insertionSort newerEq db).take limit

/-- Embeds `MarginService.get_liquidation_history`: `if account_id:` in the
source is a Python truthiness test, so the filtered query runs only for a
provided, nonzero account id; `account_id=0` (like `None`) falls through
to the unfiltered query. -/
def get_liquidation_history (db : List LiqRow) (account_id : Option Int)
    (limit : Nat) : List LiqRow :=
  match account_id with
  | some aid =>
      if aid ≠ 0 then fetch_liquidations_of_account db aid limit
      else fetch_liquidations_all db limit
  | none => fetch_liquidations_all db limit

/-! ## Theorems -/

/-- C9: for all quantities `q` and prices `p`, both implementations of
`calculate_initial_margin_required` (TradingService and
CalculationsService) return `abs(q) * p * 0.20`, and the required initial
margin is symmetric in the sign of the quantity, so a BUY and a SELL of
the same quantity and price require the same initial margin. -/
theorem initial_margin_formula_and_side_symmetry (q p : ℚ) :
    TradingService.calculate_initial_margin_required q p = |q| * p * (20 / 100) ∧
    CalculationsService.calculate_initial_margin_required q p = |q| * p * (20 / 100) ∧
    TradingService.calculate_initial_margin_required (-q) p =
      TradingService.calculate_initial_margin_required q p ∧
    CalculationsService.calculate_initial_margin_required (-q) p =
      CalculationsService.calculate_initial_margin_required q p := by
  refine ⟨rfl, rfl, ?_, ?_⟩ <;>
    simp [TradingService.calculate_initial_margin_required,
      CalculationsService.calculate_initial_margin_required, abs_neg]

/-- C6: `calculate_new_position` implements the §4.3 case analysis: no
current position gives `(tq, tp)`; a new quantity of 0 gives `(0, 0)`;
same-sign current and trade quantities give the weighted-average price
`(cq*cp + tq*tp) / (cq + tq)`; any other case (flip or partial close)
keeps the trade price as the new average.  The CalculationsService copy
agrees with the TradingService copy on all inputs. -/
theorem calculate_new_position_case_analysis :
    (∀ tq tp : ℚ, TradingService.calculate_new_position none tq tp = (tq, tp)) ∧
    (∀ cq cp tq tp : ℚ, cq + tq = 0 →
      TradingService.calculate_new_position (some (Pos.mk cq cp)) tq tp = (0, 0)) ∧
    (∀ cq cp tq tp : ℚ, (0 < cq ∧ 0 < tq) ∨ (cq < 0 ∧ tq < 0) →
      TradingService.calculate_new_position (some (Pos.mk cq cp)) tq tp =
        (cq + tq, (cq * cp + tq * tp) / (cq + tq))) ∧
    (∀ cq cp tq tp : ℚ, cq + tq ≠ 0 → ¬ ((0 < cq ∧ 0 < tq) ∨ (cq < 0 ∧ tq < 0)) →
      TradingService.calculate_new_position (some (Pos.mk cq cp)) tq tp = (cq + tq, tp)) ∧
    (∀ cur tq tp, CalculationsService.calculate_new_position cur tq tp =
      TradingService.calculate_new_position cur tq tp) := by
  refine ⟨fun tq tp => rfl, ?_, ?_, ?_, ?_⟩
  · intro cq cp tq tp h
    simp [TradingService.calculate_new_position, h]
  · intro cq cp tq tp h
    have hne : cq + tq ≠ 0 := by
      rcases h with ⟨h1, h2⟩ | ⟨h1, h2⟩
      · exact ne_of_gt (by linarith)
      · exact ne_of_lt (by linarith)
    simp only [TradingService.calculate_new_position, if_neg hne, if_pos h]
  · intro cq cp tq tp hne hsign
    simp only [TradingService.calculate_new_position, if_neg hne, if_neg hsign]
  · intro cur tq tp
    cases cur <;> rfl

/-- Witness for C6: buying 1 more at 52000 into a long position of 1 at
50000 (same sign) yields the weighted-average position (2, 51000). -/
theorem calculate_new_position_case_analysis_witness :
    TradingService.calculate_new_position (some (Pos.mk 1 50000)) 1 52000 = (2, 51000) := by
  have h := calculate_new_position_case_analysis.2.2.1 1 50000 1 52000
    (Or.inl ⟨by norm_num, by norm_num⟩)
  rw [h]
  norm_num

/-- Counterexample for C3: `MarginService.calculate_margin_utilisation`
does not return 0 for zero maintenance requirement regardless of equity —
with equity -1 and maintenance 0 it returns 100. -/
theorem margin_utilisation_margin_service_zero_maintenance_cex :
    MarginService.calculate_margin_utilisation (-1) 0 = 100 ∧
    MarginService.calculate_margin_utilisation (-1) 0 ≠ 0 := by
  constructor <;> decide

/-- C3 (amended): `CalculationsService.calculate_margin_utilisation`
returns 0 whenever maintenance is 0 regardless of equity, and equals
`maintenance / equity * 100` whenever equity is positive;
`MarginService.calculate_margin_utilisation` equals
`maintenance / equity * 100` only when equity is positive (hence 0 for
zero maintenance and positive equity), and returns 100 for every
non-positive equity — even when the maintenance requirement is 0. -/
theorem margin_utilisation_edge_cases :
    (∀ e : ℚ, CalculationsService.calculate_margin_utilisation e 0 = DecResult.val 0) ∧
    (∀ e m : ℚ, 0 < e →
      CalculationsService.calculate_margin_utilisation e m = DecResult.val (m / e * 100)) ∧
    (∀ e m : ℚ, 0 < e → MarginService.calculate_margin_utilisation e m = m / e * 100) ∧
    (∀ e : ℚ, 0 < e → MarginService.calculate_margin_utilisation e 0 = 0) ∧
    (∀ e m : ℚ, e ≤ 0 → MarginService.calculate_margin_utilisation e m = 100) := by
  refine ⟨?_, ?_, ?_, ?_, ?_⟩
  · intro e
    simp [CalculationsService.calculate_margin_utilisation]
  · intro e m he
    by_cases hm : m = 0
    · subst hm
      simp [CalculationsService.calculate_margin_utilisation]
    · simp [CalculationsService.calculate_margin_utilisation, hm, ne_of_gt he]
  · intro e m he
    simp [MarginService.calculate_margin_utilisation, he]
  · intro e he
    simp [MarginService.calculate_margin_utilisation, he]
  · intro e m he
    simp [MarginService.calculate_margin_utilisation, not_lt.mpr he]

/-- Witness for C3: with equity 2 both implementations give the formula
value, and MarginService with equity -1 gives 100. -/
theorem margin_utilisation_edge_cases_witness :
    CalculationsService.calculate_margin_utilisation 2 1 = DecResult.val 50 ∧
    MarginService.calculate_margin_utilisation 2 1 = 50 ∧
    MarginService.calculate_margin_utilisation (-1) 3 = 100 := by
  refine ⟨?_, ?_, ?_⟩
  · rw [margin_utilisation_edge_cases.2.1 2 1 (by norm_num)]
    norm_num
  · rw [margin_utilisation_edge_cases.2.2.1 2 1 (by norm_num)]
    norm_num
  · exact margin_utilisation_edge_cases.2.2.2.2 (-1) 3 (by norm_num)

/-- C10: `AccountRedisClient.get_position` never returns `None` — for a
missing entry it returns the dict with quantity 0 and avg_price 0 — and
`get_balance` returns 0 for an unknown account, so every account
implicitly exists with zero balance and flat positions.  Consequently the
argument `execute_trade` passes to `calculate_new_position` (namely the
result of `get_position`) is always a dict and the no-current-position
branch is unreachable through `execute_trade`. -/
theorem get_position_defaults_and_unreachable_none :
    (∀ (st : Store) (account_id : Int) (symbol : String),
      get_position st account_id symbol ≠ none) ∧
    (∀ (st : Store) (account_id : Int) (symbol : String),
      (get_all_positions st account_id).lookup symbol = none →
      get_position st account_id symbol = some (Pos.mk 0 0)) ∧
    (∀ (st : Store) (account_id : Int),
      st.balances.lookup account_id = none → get_balance st account_id = 0) ∧
    (∀ (st : Store) (account_id : Int) (symbol : String) (tq tp : ℚ),
      TradingService.calculate_new_position (get_position st account_id symbol) tq tp =
        TradingService.calculate_new_position
          (some (get_position_dict st account_id symbol)) tq tp) := by
  refine ⟨?_, ?_, ?_, ?_⟩
  · intro st account_id symbol
    simp [get_position]
  · intro st account_id symbol h
    simp [get_position, get_position_dict, h]
  · intro st account_id h
    simp [get_balance, h]
  · intro st account_id symbol tq tp
    rfl

/-- Witness for C10: on an empty store, account 1 reads position
(0, 0) for BTC-PERP and balance 0. -/
theorem get_position_defaults_and_unreachable_none_witness :
    get_position (Store.mk [] [] [] [] [] [] [] 0) 1 "BTC-PERP" = some (Pos.mk 0 0) ∧
    get_balance (Store.mk [] [] [] [] [] [] [] 0) 1 = 0 :=
  ⟨get_position_defaults_and_unreachable_none.2.1 _ 1 "BTC-PERP" rfl,
    get_position_defaults_and_unreachable_none.2.2.1 _ 1 rfl⟩

/-- An account holding 5 ETH-PERP (average price 10) and a flat BTC-PERP
entry, with balance 1000. -/
def sellExampleStore : Store :=
  Store.mk [(1, 1000)]
    [(1, [("ETH-PERP", Pos.mk 5 10), ("BTC-PERP", Pos.mk 0 0)])]
    [] [] [] [] [] 0

/-- When the lot-size validation passes and the pre-trade check returns a
rejection, `execute_trade` raises `TradeNotApproved` with the check's
message and returns the store untouched. -/
lemma execute_trade_not_approved (st : Store) (account_id : Int) (symbol side : String)
    (q p : ℚ) (msg : CheckMsg) (rm : ℚ)
    (hfrac : ¬ (symbol = "BTC-PERP" ∧ ¬ isWholeNumber q))
    (hp : pre_trade_check st account_id side q p = Except.ok (false, msg, rm)) :
    execute_trade st account_id symbol side q p =
      (st, Except.error (ExecErr.notApproved msg)) := by
  unfold execute_trade
  rw [if_neg hfrac, hp]
  rfl

/-- When the lot-size validation passes and the pre-trade check approves,
`execute_trade` writes the position and the balance and then raises
`AttributeError` at the `set_equity` call. -/
lemma execute_trade_approved (st : Store) (account_id : Int) (symbol side : String)
    (q p : ℚ) (rm : ℚ)
    (hfrac : ¬ (symbol = "BTC-PERP" ∧ ¬ isWholeNumber q))
    (hp : pre_trade_check st account_id side q p =
      Except.ok (true, CheckMsg.approved, rm)) :
    execute_trade st account_id symbol side q p =
      (let trade_quantity := if pyUpper side = "BUY" then q else -q
       let np := TradingService.calculate_new_position (get_position st account_id symbol)
         trade_quantity p
       let st1 := set_position st account_id symbol np.1 np.2
       let st2 := set_balance st1 account_id (get_balance st1 account_id +
         (if pyUpper side = "BUY" then -rm else rm))
       (st2, Except.error ExecErr.attributeErrorSetEquity)) := by
  unfold execute_trade
  rw [if_neg hfrac, hp]
  rfl

/-- A BUY side passes the pre-trade check whenever equity is at least the
required initial margin plus the current maintenance margin. -/
lemma pre_trade_check_buy_approves (st : Store) (account_id : Int) (side : String)
    (q p : ℚ) (hside : pyUpper side = "BUY")
    (h : ¬ (calculate_equity st account_id <
      TradingService.calculate_initial_margin_required q p +
        calculate_maintenance_margin st account_id)) :
    pre_trade_check st account_id side q p =
      Except.ok (true, CheckMsg.approved,
        TradingService.calculate_initial_margin_required q p) := by
  simp [pre_trade_check, hside, h]

/-- Counterexample for C4: a SELL of 1 ETH-PERP while holding 5 ETH-PERP
is rejected with InsufficientQuantity, because the SELL branch reads the
BTC-PERP quantity (0) instead of the trade's symbol — even though
`current_quantity - quantity = 5 - 1 ≥ 0` for the trade's symbol. -/
theorem pre_trade_check_sell_symbol_cex :
    (execute_trade sellExampleStore 1 "ETH-PERP" "SELL" 1 100).2 =
      Except.error (ExecErr.notApproved (CheckMsg.insufficientQuantity 1 0)) ∧
    (get_all_positions sellExampleStore 1).lookup "ETH-PERP" = some (Pos.mk 5 10) ∧
    ¬ ((5 : ℚ) - 1 < 0) := by
  have hup : pyUpper "SELL" = "SELL" := rfl
  have hlook : (get_all_positions sellExampleStore 1).lookup "BTC-PERP" =
      some (Pos.mk 0 0) := rfl
  have hpre : pre_trade_check sellExampleStore 1 "SELL" 1 100 =
      Except.ok (false, CheckMsg.insufficientQuantity 1 0,
        TradingService.calculate_initial_margin_required 1 100) := by
    norm_num [pre_trade_check, hup, hlook]
  have hexec := execute_trade_not_approved sellExampleStore 1 "ETH-PERP" "SELL" 1 100
    (CheckMsg.insufficientQuantity 1 0) (TradingService.calculate_initial_margin_required 1 100)
    (by intro hc; exact absurd hc.1 (by decide)) hpre
  exact ⟨by rw [hexec], rfl, by norm_num⟩

/-- C4 (amended): for every SELL trade, `pre_trade_check` reads the
account's BTC-PERP position quantity regardless of the trade's symbol
(the source comment says "assume only BTC-PERP is traded", and the symbol
is not even passed to `pre_trade_check`); it raises `KeyError` when the
account has no stored BTC-PERP entry, rejects with `InsufficientQuantity`
exactly when `btc_quantity - quantity < 0`, and approves otherwise —
raising no other error in the SELL branch. -/
theorem pre_trade_check_sell_reads_btc_perp (st : Store) (account_id : Int)
    (side : String) (q p : ℚ) (hside : pyUpper side = "SELL") :
    ((get_all_positions st account_id).lookup "BTC-PERP" = none →
      pre_trade_check st account_id side q p = Except.error PreErr.keyError) ∧
    (∀ pos, (get_all_positions st account_id).lookup "BTC-PERP" = some pos →
      (pos.quantity - q < 0 →
        pre_trade_check st account_id side q p =
          Except.ok (false, CheckMsg.insufficientQuantity q pos.quantity,
            TradingService.calculate_initial_margin_required q p)) ∧
      (¬ pos.quantity - q < 0 →
        pre_trade_check st account_id side q p =
          Except.ok (true, CheckMsg.approved,
            TradingService.calculate_initial_margin_required q p))) := by
  constructor
  · intro h
    simp [pre_trade_check, hside, h]
  · intro pos h
    constructor
    · intro hlt
      simp [pre_trade_check, hside, h, hlt]
    · intro hge
      simp [pre_trade_check, hside, h, hge]

/-- Witness for C4: on `sellExampleStore`, a SELL of 1 with stored
BTC-PERP quantity 0 is rejected with InsufficientQuantity. -/
theorem pre_trade_check_sell_reads_btc_perp_witness :
    pre_trade_check sellExampleStore 1 "SELL" 1 100 =
      Except.ok (false, CheckMsg.insufficientQuantity 1 0,
        TradingService.calculate_initial_margin_required 1 100) :=
  ((pre_trade_check_sell_reads_btc_perp sellExampleStore 1 "SELL" 1 100 (by rfl)).2
    (Pos.mk 0 0) rfl).1 (by norm_num)

/-- C5: a trade request rejected by the quantity validation or by the
pre-trade check (fractional lot, invalid side, insufficient
quantity/margin) raises a typed failure and performs no writes: the store
— balance, positions, mark prices, equity/used-margin caches, and both
history tables — is exactly the state before the call. -/
theorem rejected_trade_performs_no_writes (st : Store) (account_id : Int)
    (symbol side : String) (q p : ℚ) (e : ExecErr)
    (h : (execute_trade st account_id symbol side q p).2 = Except.error e)
    (he : e = ExecErr.fractionalQuantity ∨ e = ExecErr.invalidSide ∨
      ∃ m, e = ExecErr.notApproved m) :
    (execute_trade st account_id symbol side q p).1 = st := by
  unfold execute_trade at h ⊢
  by_cases h1 : symbol = "BTC-PERP" ∧ ¬ isWholeNumber q
  · simp [h1]
  · simp only [if_neg h1] at h ⊢
    cases hp : pre_trade_check st account_id side q p with
    | error pe => cases pe <;> simp [hp]
    | ok res =>
      obtain ⟨cp, msg, rm⟩ := res
      by_cases hc : cp
      · subst hc
        rw [hp] at h
        simp at h
        rcases he with he | he | ⟨m, he⟩ <;> subst he <;> simp_all
      · simp only [Bool.not_eq_true] at hc
        subst hc
        simp [hp]

/-- Witness for C5: a trade with side "HOLD" on an empty store is rejected
with the invalid-side error and leaves the store untouched. -/
theorem rejected_trade_performs_no_writes_witness :
    (execute_trade (Store.mk [] [] [] [] [] [] [] 0) 1 "ETH-PERP" "HOLD" 1 50).1 =
      Store.mk [] [] [] [] [] [] [] 0 :=
  rejected_trade_performs_no_writes (Store.mk [] [] [] [] [] [] [] 0) 1 "ETH-PERP" "HOLD"
    1 50 ExecErr.invalidSide (by rfl) (Or.inr (Or.inl rfl))

/-- A liquidations table holding one row of account 0 and one newer row of
account 7. -/
def liqHistExample : List LiqRow :=
  [LiqRow.mk 1 0 (-5) 4 10, LiqRow.mk 2 7 (-5) 4 20]

/-- Counterexample for C8: querying the history with `account_id = 0` does
not return only rows of account 0 — the Python truthiness test
`if account_id:` treats 0 as "not provided", so rows of other accounts
come back. -/
theorem get_liquidation_history_account_zero_cex :
    ¬ (∀ r ∈ get_liquidation_history liqHistExample (some 0) 10, r.account_id = 0) := by
  decide

/-- C8 (amended): for every provided nonzero account id the query returns
only liquidation rows of that account, newest-first, capped at `limit` —
precisely, the result is the `limit`-prefix of a newest-first sorting of
the account's rows; with the account id omitted it returns the
`limit`-prefix of a newest-first sorting of all rows; and `account_id = 0`
behaves exactly as if the account id were omitted (Python truthiness of
`if account_id:`). -/
theorem get_liquidation_history_filter_sort_cap (db : List LiqRow) (limit : Nat) :
    (∀ aid : Int, aid ≠ 0 →
      (∀ r ∈ get_liquidation_history db (some aid) limit, r ∈ db ∧ r.account_id = aid) ∧
      List.Sorted newerEq (get_liquidation_history db (some aid) limit) ∧
      (get_liquidation_history db (some aid) limit).length ≤ limit ∧
      ∃ l, l.Perm (db.filter (fun r => r.account_id == aid)) ∧ List.Sorted newerEq l ∧
        get_liquidation_history db (some aid) limit = l.take limit) ∧
    (List.Sorted newerEq (get_liquidation_history db none limit) ∧
      (get_liquidation_history db none limit).length ≤ limit ∧
      ∃ l, l.Perm db ∧ List.Sorted newerEq l ∧
        get_liquidation_history db none limit = l.take limit) ∧
    get_liquidation_history db (some 0) limit = get_liquidation_history db none limit := by
  refine ⟨?_, ⟨?_, ?_, ?_⟩, ?_⟩
  · intro aid haid
    have hdef : get_liquidation_history db (some aid) limit =
        (List.insertionSort newerEq (db.filter (fun r => r.account_id == aid))).take limit := by
      simp [get_liquidation_history, fetch_liquidations_of_account, haid]
    refine ⟨?_, ?_, ?_, ?_⟩
    · intro r hr
      rw [hdef] at hr
      have hr2 : r ∈ List.insertionSort newerEq (db.filter (fun x => x.account_id == aid)) :=
        (List.take_sublist _ _).mem hr
      have hr3 : r ∈ db.filter (fun x => x.account_id == aid) :=
        (List.mem_insertionSort newerEq).mp hr2
      have := List.mem_filter.mp hr3
      exact ⟨this.1, by simpa using this.2⟩
    · rw [hdef]
      exact ((List.sorted_insertionSort newerEq _).sublist (List.take_sublist _ _))
    · rw [hdef]
      exact List.length_take_le _ _
    · exact ⟨List.insertionSort newerEq (db.filter (fun r => r.account_id == aid)),
        List.perm_insertionSort newerEq _, List.sorted_insertionSort newerEq _, hdef⟩
  · exact (List.sorted_insertionSort newerEq db).sublist (List.take_sublist _ _)
  · exact List.length_take_le _ _
  · exact ⟨List.insertionSort newerEq db, List.perm_insertionSort newerEq db,
      List.sorted_insertionSort newerEq db, rfl⟩
  · rfl

/-- Witness for C8: querying `liqHistExample` for account 7 with limit 5
returns exactly the account-7 row. -/
theorem get_liquidation_history_filter_sort_cap_witness :
    (∀ r ∈ get_liquidation_history liqHistExample (some 7) 5,
      r ∈ liqHistExample ∧ r.account_id = 7) ∧
    (get_liquidation_history liqHistExample (some 7) 5).length ≤ 5 :=
  ⟨((get_liquidation_history_filter_sort_cap liqHistExample 5).1 7 (by decide)).1,
    ((get_liquidation_history_filter_sort_cap liqHistExample 5).1 7 (by decide)).2.2.1⟩

lemma balances_record_liquidation (s : Store) (a : Int) (e m : ℚ) :
    (record_liquidation s a e m).balances = s.balances := rfl

lemma positions_record_liquidation (s : Store) (a : Int) (e m : ℚ) :
    (record_liquidation s a e m).positions = s.positions := rfl

lemma mark_prices_record_liquidation (s : Store) (a : Int) (e m : ℚ) :
    (record_liquidation s a e m).mark_prices = s.mark_prices := rfl

lemma liquidations_record_liquidation (s : Store) (a : Int) (e m : ℚ) :
    (record_liquidation s a e m).liquidations =
      s.liquidations ++ [LiqRow.mk (s.liquidations.length + 1) a e m s.clock] := rfl

/-- Recording a liquidation touches only the liquidations table and the
clock, so every per-account figure of the scan is unchanged by it. -/
lemma accountDetail_record_liquidation (s : Store) (a : Int) (e m : ℚ) (aid : Int) :
    accountDetail (record_liquidation s a e m) aid = accountDetail s aid := rfl

/-- Unfolding the scan loop of `get_margin_utilisation`: the store keeps
its balances, positions and mark prices; the candidate list extends by the
accounts whose detail carries the risk flag; the detail list extends by
one detail row per scanned account; and the liquidation rows appended
during the scan carry exactly the flagged account ids, in scan order. -/
lemma marginScan_foldl_spec (accounts : List Int) :
    ∀ (s : Store) (cands : List Int) (details : List AccountMarginDetail),
      ((accounts.foldl marginScanStep (s, cands, details)).1.balances = s.balances ∧
        (accounts.foldl marginScanStep (s, cands, details)).1.positions = s.positions ∧
        (accounts.foldl marginScanStep (s, cands, details)).1.mark_prices = s.mark_prices) ∧
      (accounts.foldl marginScanStep (s, cands, details)).2.1 =
        cands ++ accounts.filter (fun aid => (accountDetail s aid).liquidation_risk) ∧
      (accounts.foldl marginScanStep (s, cands, details)).2.2 =
        details ++ accounts.map (fun aid => accountDetail s aid) ∧
      (accounts.foldl marginScanStep (s, cands, details)).1.liquidations.map LiqRow.account_id =
        s.liquidations.map LiqRow.account_id ++
          accounts.filter (fun aid => (accountDetail s aid).liquidation_risk) := by
  induction accounts with
  | nil =>
    intro s cands details
    simp
  | cons aid rest ih =>
    intro s cands details
    rw [List.foldl_cons]
    by_cases hrisk : (accountDetail s aid).liquidation_risk
    · have hstep : marginScanStep (s, cands, details) aid =
          (record_liquidation s aid (accountDetail s aid).equity
              (accountDetail s aid).maintenance_margin_required,
            cands ++ [aid], details ++ [accountDetail s aid]) := by
        simp [marginScanStep, hrisk]
      rw [hstep]
      have ihh := ih (record_liquidation s aid (accountDetail s aid).equity
          (accountDetail s aid).maintenance_margin_required)
        (cands ++ [aid]) (details ++ [accountDetail s aid])
      simp only [accountDetail_record_liquidation, balances_record_liquidation,
        positions_record_liquidation, mark_prices_record_liquidation,
        liquidations_record_liquidation, List.map_append] at ihh
      refine ⟨ihh.1, ?_, ?_, ?_⟩
      · rw [ihh.2.1]
        simp [List.filter_cons, hrisk]
      · rw [ihh.2.2.1]
        simp
      · rw [ihh.2.2.2]
        simp [List.filter_cons, hrisk]
    · have hstep : marginScanStep (s, cands, details) aid =
          (s, cands, details ++ [accountDetail s aid]) := by
        simp [marginScanStep, hrisk]
      rw [hstep]
      have ihh := ih s cands (details ++ [accountDetail s aid])
      refine ⟨ihh.1, ?_, ?_, ?_⟩
      · rw [ihh.2.1]
        simp [List.filter_cons, hrisk]
      · rw [ihh.2.2.1]
        simp
      · rw [ihh.2.2.2]
        simp [List.filter_cons, hrisk]

/-- C7: in `get_margin_utilisation`, an account of the scan appears in
`liquidation_candidates` iff its equity is strictly below its maintenance
margin requirement; its detail row carries `liquidation_risk = true` iff
the same; the account ids of the `Liquidation` rows written during the
scan are exactly the candidates list; and an account whose equity exactly
equals the requirement is not a candidate. -/
theorem margin_scan_liquidation_candidates_iff (st : Store) (aid : Int)
    (h : aid ∈ get_all_accounts st) :
    (aid ∈ (get_margin_utilisation st).2.liquidation_candidates ↔
      calculate_equity st aid < calculate_maintenance_margin st aid) ∧
    ((∃ d ∈ (get_margin_utilisation st).2.accounts_detail,
        d.account_id = aid ∧ d.liquidation_risk = true) ↔
      calculate_equity st aid < calculate_maintenance_margin st aid) ∧
    ((get_margin_utilisation st).1.liquidations.map LiqRow.account_id =
      st.liquidations.map LiqRow.account_id ++
        (get_margin_utilisation st).2.liquidation_candidates) ∧
    (calculate_equity st aid = calculate_maintenance_margin st aid →
      aid ∉ (get_margin_utilisation st).2.liquidation_candidates) := by
  have spec := marginScan_foldl_spec (get_all_accounts st) st [] []
  have hcand : (get_margin_utilisation st).2.liquidation_candidates =
      (get_all_accounts st).filter (fun a => (accountDetail st a).liquidation_risk) := by
    simpa [get_margin_utilisation] using spec.2.1
  have hdet : (get_margin_utilisation st).2.accounts_detail =
      (get_all_accounts st).map (fun a => accountDetail st a) := by
    simpa [get_margin_utilisation] using spec.2.2.1
  have hrisk_iff : ∀ a : Int, ((accountDetail st a).liquidation_risk = true ↔
      calculate_equity st a < calculate_maintenance_margin st a) := by
    intro a
    simp [accountDetail, is_liquidation_candidate]
  have hmem : aid ∈ (get_margin_utilisation st).2.liquidation_candidates ↔
      calculate_equity st aid < calculate_maintenance_margin st aid := by
    rw [hcand, List.mem_filter]
    constructor
    · intro hx
      exact (hrisk_iff aid).mp hx.2
    · intro hx
      exact ⟨h, (hrisk_iff aid).mpr hx⟩
  refine ⟨hmem, ?_, ?_, ?_⟩
  · rw [hdet]
    constructor
    · rintro ⟨d, hd, hdid, hdrisk⟩
      obtain ⟨a, _, rfl⟩ := List.mem_map.mp hd
      have : a = aid := hdid
      subst this
      exact (hrisk_iff a).mp hdrisk
    · intro hx
      exact ⟨accountDetail st aid, List.mem_map.mpr ⟨aid, h, rfl⟩, rfl,
        (hrisk_iff aid).mpr hx⟩
  · have hliq := spec.2.2.2
    have hst : (get_margin_utilisation st).1 =
        ((get_all_accounts st).foldl marginScanStep (st, [], [])).1 := rfl
    rw [hst, hliq, hcand]
  · intro heq hmem2
    exact absurd (hmem.mp hmem2) (by rw [heq]; exact lt_irrefl _)

/-- An account store with an underwater account 1 (equity -110 against a
maintenance requirement of 4) and a flat account 2. -/
def marginScanExampleStore : Store :=
  Store.mk [(1, -100), (2, 100)]
    [(1, [("BTC-PERP", Pos.mk 1 50)]), (2, [])]
    [("BTC-PERP", 40)] [] [] [] [] 0

/-- Witness for C7: account 1 of `marginScanExampleStore` is reported as a
liquidation candidate. -/
theorem margin_scan_liquidation_candidates_iff_witness :
    1 ∈ (get_margin_utilisation marginScanExampleStore).2.liquidation_candidates := by
  have hbal : get_balance marginScanExampleStore 1 = -100 := rfl
  have hpos : get_all_positions marginScanExampleStore 1 = [("BTC-PERP", Pos.mk 1 50)] := rfl
  have hmark : get_mark_price marginScanExampleStore "BTC-PERP" = some 40 := rfl
  have heq : calculate_equity marginScanExampleStore 1 <
      calculate_maintenance_margin marginScanExampleStore 1 := by
    norm_num [calculate_equity, calculate_maintenance_margin, hbal, hpos, hmark,
      MAINTENANCE_MARGIN_RATE, List.foldl]
  exact (margin_scan_liquidation_candidates_iff marginScanExampleStore 1
    (by decide)).1.mpr heq

/-- Overwriting a field of a hash makes a later read of that field return
the new value. -/
lemma lookup_hsetAssoc_self {α β : Type} [BEq α] [LawfulBEq α]
    (l : List (α × β)) (k : α) (v : β) :
    List.lookup k (hsetAssoc l k v) = some v := by
  induction l with
  | nil => simp [hsetAssoc, List.lookup]
  | cons kv rest ih =>
    obtain ⟨k2, v2⟩ := kv
    rw [hsetAssoc]
    by_cases h : k2 == k
    · rw [if_pos h]
      simp [List.lookup]
    · rw [if_neg h]
      have hne : (k == k2) = false := by
        rw [beq_eq_false_iff_ne]
        intro hh
        exact h (by simp [hh])
      simp [List.lookup, hne, ih]

lemma get_position_dict_set_balance (s : Store) (a : Int) (b : ℚ)
    (account_id : Int) (symbol : String) :
    get_position_dict (set_balance s a b) account_id symbol =
      get_position_dict s account_id symbol := rfl

lemma trades_set_balance (s : Store) (a : Int) (b : ℚ) :
    (set_balance s a b).trades = s.trades := rfl

lemma trades_set_position (s : Store) (a : Int) (sym : String) (q e : ℚ) :
    (set_position s a sym q e).trades = s.trades := rfl

/-- An account holding 1 BTC-PERP bought at 50000, mark price 50000,
balance 100000 — comfortably passing every margin check. -/
def exStore : Store :=
  Store.mk [(1, 100000)] [(1, [("BTC-PERP", Pos.mk 1 50000)])]
    [("BTC-PERP", 50000)] [] [] [] [] 0

/-- Evaluation of `execute_trade` on `exStore` for BUY 1 BTC-PERP @ 52000:
the trade is approved, `calculate_new_position` yields (2, 51000), and the
call writes that pair through `set_position`, updates the balance, and
then raises at the missing `set_equity` method. -/
lemma exStore_execute_trade_eq :
    execute_trade exStore 1 "BTC-PERP" "BUY" 1 52000 =
      (set_balance (set_position exStore 1 "BTC-PERP" 2 51000) 1
        (get_balance (set_position exStore 1 "BTC-PERP" 2 51000) 1 +
          -TradingService.calculate_initial_margin_required 1 52000),
        Except.error ExecErr.attributeErrorSetEquity) := by
  have hbal : get_balance exStore 1 = 100000 := rfl
  have hpos : get_all_positions exStore 1 = [("BTC-PERP", Pos.mk 1 50000)] := rfl
  have hmark : get_mark_price exStore "BTC-PERP" = some 50000 := rfl
  have hgp : get_position exStore 1 "BTC-PERP" = some (Pos.mk 1 50000) := rfl
  have heq : calculate_equity exStore 1 = 100000 := by
    norm_num [calculate_equity, hbal, hpos, hmark, List.foldl_cons, List.foldl_nil]
  have hmaint : calculate_maintenance_margin exStore 1 = 5000 := by
    norm_num [calculate_maintenance_margin, hpos, hmark, MAINTENANCE_MARGIN_RATE,
      List.foldl_cons, List.foldl_nil]
  have hrm : TradingService.calculate_initial_margin_required 1 52000 = 10400 := by
    norm_num [TradingService.calculate_initial_margin_required, INITIAL_MARGIN_RATE]
  have hnp : TradingService.calculate_new_position (some (Pos.mk 1 50000)) 1 52000 =
      (2, 51000) := by
    norm_num [TradingService.calculate_new_position]
  have happ := pre_trade_check_buy_approves exStore 1 "BUY" 1 52000 rfl
    (by rw [heq, hmaint, hrm]; norm_num)
  have hexec := execute_trade_approved exStore 1 "BTC-PERP" "BUY" 1 52000
    (TradingService.calculate_initial_margin_required 1 52000)
    (by
      intro hc
      exact hc.2 (by simp [isWholeNumber]))
    happ
  have hif1 : (if pyUpper "BUY" = "BUY" then (1 : ℚ) else -1) = 1 := rfl
  have hif2 : (if pyUpper "BUY" = "BUY"
      then -TradingService.calculate_initial_margin_required 1 52000
      else TradingService.calculate_initial_margin_required 1 52000) =
      -TradingService.calculate_initial_margin_required 1 52000 := rfl
  rw [hexec]
  simp only [hgp, hif1, hif2, hnp]

/-- C1 (code bug): `apply_trade` on the held position (1, 50000) with a
BUY of 1 @ 52000 yields (2, 51000), but after `execute_trade` the stored
position for (1, BTC-PERP) is (3, 50666.67) — `set_position` re-applies
the weighted average, treating the absolute position it is given as a
trade delta against the stored position, so the stored result differs
from the `apply_trade` value. -/
theorem execute_trade_double_weighted_average_bug :
    TradingService.calculate_new_position (some (Pos.mk 1 50000)) 1 52000 = (2, 51000) ∧
    get_position_dict (execute_trade exStore 1 "BTC-PERP" "BUY" 1 52000).1 1 "BTC-PERP" =
      Pos.mk 3 (152000 / 3) ∧
    Pos.mk (3 : ℚ) (152000 / 3) ≠ Pos.mk 2 51000 := by
  have hexisting : get_position_dict exStore 1 "BTC-PERP" = Pos.mk 1 50000 := rfl
  have hnp : TradingService.calculate_new_position (some (Pos.mk 1 50000)) 1 52000 =
      (2, 51000) := by
    norm_num [TradingService.calculate_new_position]
  have hst1pos : (set_position exStore 1 "BTC-PERP" 2 51000).positions =
      hsetAssoc exStore.positions 1
        (hsetAssoc (get_all_positions exStore 1) "BTC-PERP" (Pos.mk 3 (152000 / 3))) := by
    simp only [set_position, hexisting]
    norm_num
  have hget_all : get_all_positions (set_position exStore 1 "BTC-PERP" 2 51000) 1 =
      hsetAssoc (get_all_positions exStore 1) "BTC-PERP" (Pos.mk 3 (152000 / 3)) := by
    unfold get_all_positions
    rw [hst1pos, lookup_hsetAssoc_self]
    rfl
  have hdict : get_position_dict (set_position exStore 1 "BTC-PERP" 2 51000) 1 "BTC-PERP" =
      Pos.mk 3 (152000 / 3) := by
    unfold get_position_dict
    rw [hget_all, lookup_hsetAssoc_self]
  refine ⟨hnp, ?_, ?_⟩
  · rw [exStore_execute_trade_eq]
    rw [get_position_dict_set_balance]
    exact hdict
  · intro hcontra
    have h3 := congrArg Pos.quantity hcontra
    norm_num at h3

/-- C2 (code bug): no approved trade ever appends a `Trade` record or
returns a trade id.  `_record_trade_in_postgres` cannot construct the
pydantic `Trade` (the required field `notional` is not among the keyword
arguments), so it raises for every input; and on the approved path
`execute_trade` raises `AttributeError` at `account_client.set_equity`
before even reaching the history write — for the concrete approved BUY on
`exStore`, the call errors and the trades table is unchanged. -/
theorem trade_history_record_never_written :
    (∀ (st : Store) (account_id : Int) (symbol side : String) (q p : ℚ),
      record_trade_in_postgres st account_id symbol side q p = Except.error ()) ∧
    (execute_trade exStore 1 "BTC-PERP" "BUY" 1 52000).2 =
      Except.error ExecErr.attributeErrorSetEquity ∧
    (execute_trade exStore 1 "BTC-PERP" "BUY" 1 52000).1.trades = exStore.trades := by
  refine ⟨fun st account_id symbol side q p => rfl, ?_, ?_⟩
  · rw [exStore_execute_trade_eq]
  · rw [exStore_execute_trade_eq, trades_set_balance, trades_set_position]

end QTask
